import Mathlib

/-!
Shallow embedding of the software video compositor in
`src/source/agent/video/videoMixer/SoftVideoCompositor.cpp` (namespace `mcu`):
the per-participant bounded input queue `SoftInput`, the avatar cache
`AvatarManager`, and the frame selection / fps logic of `SoftFrameGenerator`
and `SoftVideoCompositor`.

Queues are lists with the head at the `front()` end (`push_back` appends at
the tail, matching `std::deque`).  Machine integers are modelled as `Nat`
(`uint32_t` values that never overflow in the modelled paths) and `Int`
(`int64_t` sync timestamps).  Pixel-level scaling (libyuv) and the text
overlay are outside the modelled state; frame buffers are abstract ids.
-/

/-- Frame format tag, from owt_base `FrameFormat`.  Only the identity of
`FRAME_FORMAT_I420` matters to the compositor; other formats are
represented by a few sample constructors. -/
inductive FrameFormat where
  | I420
  | VP8
  | H264
deriving DecidableEq, Repr

/-- An owt_base `Frame` as it reaches `SoftInput::pushInput`: format tag,
payload buffer (abstract id), 90 kHz timestamp, and the optional
cross-stream sync fields. -/
structure Frame where
  format : FrameFormat
  payload : Nat
  timeStamp : Nat
  sync_enabled : Bool
  sync_timeStamp : Int
deriving DecidableEq, Repr

/-- A queued `SoftInputFrame`: pooled buffer handle plus the timestamps
copied from the pushed frame (`SoftVideoCompositor.cpp:241-245`). -/
structure SoftInputFrame where
  buffer : Nat
  timeStamp : Nat
  sync_enabled : Bool
  sync_timeStamp : Int
deriving DecidableEq, Repr

/-- A decoded avatar image (`webrtc::VideoFrame`), abstracted to a buffer id. -/
structure VideoFrame where
  id : Nat
deriving DecidableEq, Repr

/-- State of one `SoftInput` (`SoftVideoCompositor.cpp:180-331`).  The queue
head is the `front()` element. -/
structure SoftInput where
  m_active : Bool
  m_sync_enabled : Bool
  m_frame_sync_enabled : Bool
  m_frame_queue : List SoftInputFrame
deriving DecidableEq, Repr

/-- Constructor state of `SoftInput` (`SoftVideoCompositor.cpp:180-184`). -/
def SoftInput.init : SoftInput :=
  { m_active := false
  , m_sync_enabled := true
  , m_frame_sync_enabled := false
  , m_frame_queue := [] }

/-- Modelled from the spec: `kMaxQueueSize` is declared in the (absent)
header `SoftVideoCompositor.h`; the spec fixes it to 5 ("fixed, 5 is
adequate").  No claim depends on the concrete value. -/
def kMaxQueueSize : Nat := 5

/-- `SoftInput::setActive` (`SoftVideoCompositor.cpp:193-199`): store the
flag and clear the queue on deactivation. -/
def SoftInput.setActive (s : SoftInput) (active : Bool) : SoftInput :=
  { s with m_active := active
         , m_frame_queue := if active then s.m_frame_queue else [] }

/-- `SoftInput::isSyncEnabled` (`SoftVideoCompositor.cpp:327-331`). -/
def SoftInput.isSyncEnabled (s : SoftInput) : Bool :=
  s.m_sync_enabled && s.m_frame_sync_enabled

/-- Outcome of a `pushInput` call.  `asserted` records that the
`assert(frame.format == FRAME_FORMAT_I420)` at `SoftVideoCompositor.cpp:208`
fired (an abort with assertions enabled, not a silent drop);
`droppedNoBuffer` covers the `getFreeBuffer` / `convert` failure returns. -/
inductive PushOutcome where
  | asserted
  | droppedInactive
  | droppedNoBuffer
  | pushed
deriving DecidableEq, Repr

/-- The `SoftInputFrame` built from a pushed frame
(`SoftVideoCompositor.cpp:241-245`). -/
def mkInputFrame (f : Frame) : SoftInputFrame :=
  { buffer := f.payload
  , timeStamp := f.timeStamp
  , sync_enabled := f.sync_enabled
  , sync_timeStamp := f.sync_timeStamp }

/-- `SoftInput::pushInput` (`SoftVideoCompositor.cpp:206-254`), sequential
semantics.  `convertOk` models success of the pool allocation and
`FrameConverter::convert` between the two critical sections; the interleaved
deactivation race the code guards against with its second `m_active` check
is not modelled. -/
def SoftInput.pushInput (s : SoftInput) (f : Frame) (convertOk : Bool) :
    PushOutcome × SoftInput :=
  if f.format ≠ FrameFormat.I420 then (.asserted, s)
  else if ¬ s.m_active then (.droppedInactive, s)
  else
    let s1 := if s.m_frame_queue.length = kMaxQueueSize
              then { s with m_frame_queue := [], m_sync_enabled := false }
              else s
    if ¬ convertOk then (.droppedNoBuffer, s1)
    else
      let s2 := { s1 with m_frame_sync_enabled := f.sync_enabled }
      let s3 := if ¬ s2.m_sync_enabled || ¬ s2.m_frame_sync_enabled
                then { s2 with m_frame_queue := [] }
                else s2
      (.pushed, { s3 with m_frame_queue := s3.m_frame_queue ++ [mkInputFrame f] })

/-- `SoftInput::popInput` (`SoftVideoCompositor.cpp:256-272`): return the
front frame, removing it only when the queue holds more than one frame. -/
def SoftInput.popInput (s : SoftInput) : Option SoftInputFrame × SoftInput :=
  if ¬ s.m_active then (none, s)
  else
    match s.m_frame_queue with
    | [] => (none, s)
    | f :: rest =>
        (some f, if rest.isEmpty then s else { s with m_frame_queue := rest })

/-- `SoftInput::front` (`SoftVideoCompositor.cpp:274-285`). -/
def SoftInput.front (s : SoftInput) : Option SoftInputFrame :=
  if s.m_active then s.m_frame_queue.head? else none

/-- `SoftInput::back` (`SoftVideoCompositor.cpp:287-298`). -/
def SoftInput.back (s : SoftInput) : Option SoftInputFrame :=
  if s.m_active then s.m_frame_queue.getLast? else none

/-- The advance loop of `SoftInput::get_sync_frame`
(`SoftVideoCompositor.cpp:313-321`): pop from the front while the front's
`sync_timeStamp` is below the target and more than one frame remains. -/
def syncAdvance (target : Int) : List SoftInputFrame → List SoftInputFrame
  | [] => []
  | [f] => [f]
  | f :: g :: rest =>
      if f.sync_timeStamp < target then syncAdvance target (g :: rest)
      else f :: g :: rest

/-- `SoftInput::get_sync_frame` (`SoftVideoCompositor.cpp:300-325`). -/
def SoftInput.get_sync_frame (s : SoftInput) (sync_timeStamp : Int) :
    Option SoftInputFrame × SoftInput :=
  if ¬ s.m_active then (none, s)
  else
    match s.m_frame_queue with
    | [] => (none, s)
    | _ :: _ =>
        if sync_timeStamp = -1 then (s.m_frame_queue.head?, s)
        else
          let q := syncAdvance sync_timeStamp s.m_frame_queue
          (q.head?, { s with m_frame_queue := q })

/-- One externally triggerable operation on a `SoftInput`, used to state
that sync demotion is permanent (claim about `isSyncEnabled` after any
subsequent sequence of operations). -/
inductive InOp where
  | opSetActive (b : Bool)
  | opPush (f : Frame) (convertOk : Bool)
  | opPop
  | opSyncFrame (t : Int)
deriving DecidableEq, Repr

/-- Apply one operation to a `SoftInput` and keep the resulting state. -/
def applyInOp (s : SoftInput) : InOp → SoftInput
  | .opSetActive b => s.setActive b
  | .opPush f ok => (s.pushInput f ok).2
  | .opPop => s.popInput.2
  | .opSyncFrame t => (s.get_sync_frame t).2

/-- Apply a sequence of operations in order. -/
def applyInOps (ops : List InOp) (s : SoftInput) : SoftInput :=
  ops.foldl applyInOp s

/-! ## AvatarManager -/

/-- Lookup in an association list, modelling `std::map::find`. -/
def alookup {α β : Type} [DecidableEq α] : List (α × β) → α → Option β
  | [], _ => none
  | (a, b) :: rest, k => if a = k then some b else alookup rest k

/-- Insert-or-update in an association list, modelling `map[k] = v`. -/
def aupdate {α β : Type} [DecidableEq α] : List (α × β) → α → β → List (α × β)
  | [], k, v => [(k, v)]
  | (a, b) :: rest, k, v =>
      if a = k then (k, v) :: rest else (a, b) :: aupdate rest k v

/-- Erase a key from an association list, modelling `std::map::erase`. -/
def aerase {α β : Type} [DecidableEq α] : List (α × β) → α → List (α × β)
  | [], _ => []
  | (a, b) :: rest, k => if a = k then rest else (a, b) :: aerase rest k

/-- State of `AvatarManager` (`SoftVideoCompositor.cpp:22-176`):
`m_inputs` maps an input index to its avatar url, `m_frames` caches the
result of `loadImage` per url.  The cached value is the raw
`boost::shared_ptr`, so a failed load is cached as `some none` (a stored
null pointer), distinct from `none` (no cache entry). -/
structure AvatarManager where
  m_inputs : List (Nat × String)
  m_frames : List (String × Option VideoFrame)
deriving DecidableEq, Repr

/-- Empty `AvatarManager` as constructed (`SoftVideoCompositor.cpp:22-25`). -/
def AvatarManager.init : AvatarManager := { m_inputs := [], m_frames := [] }

/-- `AvatarManager::getAvatarFrame` (`SoftVideoCompositor.cpp:159-176`).
`load` abstracts `loadImage` (`SoftVideoCompositor.cpp:75-110`): url
parsing (`getImageSize`) plus the file read and size validation, whose
parse / size / I/O failures all surface as `none`.  It is a parameter
because its result depends on the filesystem at call time.  A cache hit is
returned as-is — even a cached null — and a miss stores whatever `load`
returns, null included. -/
def AvatarManager.getAvatarFrame (load : String → Option VideoFrame)
    (index : Nat) (m : AvatarManager) : Option VideoFrame × AvatarManager :=
  match alookup m.m_inputs index with
  | none => (none, m)
  | some url =>
      match alookup m.m_frames url with
      | some cached => (cached, m)
      | none =>
          let frame := load url
          (frame, { m with m_frames := aupdate m.m_frames url frame })

/-- `AvatarManager::setAvatar` (`SoftVideoCompositor.cpp:112-136`).  A
rebind to the identical url returns early with no state change; otherwise
the old url's cache entry is evicted only when no other index still maps
to it (the scan runs after the rebind, as in the source). -/
def AvatarManager.setAvatar (index : Nat) (url : String) (m : AvatarManager) :
    Bool × AvatarManager :=
  match alookup m.m_inputs index with
  | none => (true, { m with m_inputs := aupdate m.m_inputs index url })
  | some old =>
      if old = url then (true, m)
      else
        let inputs2 := aupdate m.m_inputs index url
        if inputs2.any (fun p => p.2 == old) then
          (true, { m with m_inputs := inputs2 })
        else
          (true, { m_inputs := inputs2, m_frames := aerase m.m_frames old })

/-- `AvatarManager::unsetAvatar` (`SoftVideoCompositor.cpp:138-157`). -/
def AvatarManager.unsetAvatar (index : Nat) (m : AvatarManager) :
    Bool × AvatarManager :=
  match alookup m.m_inputs index with
  | none => (true, m)
  | some url =>
      let inputs2 := aerase m.m_inputs index
      if inputs2.any (fun p => p.2 == url) then
        (true, { m with m_inputs := inputs2 })
      else
        (true, { m_inputs := inputs2, m_frames := aerase m.m_frames url })

/-! ## Layout data model and the compositor facade -/

/-- A layout `Rational` {numerator, denominator}. -/
structure Rational where
  numerator : Int
  denominator : Int
deriving DecidableEq, Repr

/-- A layout region rectangle in fractional coordinates (the
`region.area.rect` fields read at `SoftVideoCompositor.cpp:590-593`;
the shape tag is always rectangular and omitted). -/
structure Region where
  left : Rational
  top : Rational
  width : Rational
  height : Rational
deriving DecidableEq, Repr

/-- One `LayoutSolution` entry: input index plus its region. -/
structure LayoutEntry where
  input : Nat
  region : Region
deriving DecidableEq, Repr

/-- Ordered layout solution. -/
abbrev LayoutSolution : Type := List LayoutEntry

/-- Compositor state visible to frame selection: the fixed array of inputs
(total map from index) and the avatar manager
(`SoftVideoCompositor.cpp:751-764`). -/
structure SoftVideoCompositor where
  m_inputs : Nat → SoftInput
  m_avatars : AvatarManager

/-- Point update of the input array. -/
def updIn (g : Nat → SoftInput) (i : Nat) (s : SoftInput) : Nat → SoftInput :=
  fun j => if j = i then s else g j

/-- A frame handed to composition for one region: either the queue frame of
an active input (the source wraps only its buffer in a `VideoFrame`; the
model keeps the whole record so timestamp properties can be stated) or an
avatar frame of an inactive input. -/
inductive PickedFrame where
  | fromQueue (f : SoftInputFrame)
  | fromAvatar (v : VideoFrame)
deriving DecidableEq, Repr

/-- `SoftVideoCompositor::getInputFrame` (`SoftVideoCompositor.cpp:846-858`):
an active input is popped, an inactive one falls back to the avatar. -/
def getInputFrame (load : String → Option VideoFrame)
    (st : SoftVideoCompositor) (index : Nat) :
    Option PickedFrame × SoftVideoCompositor :=
  if (st.m_inputs index).m_active then
    ((st.m_inputs index).popInput.1.map .fromQueue,
     { st with m_inputs := updIn st.m_inputs index (st.m_inputs index).popInput.2 })
  else
    ((st.m_avatars.getAvatarFrame load index).1.map .fromAvatar,
     { st with m_avatars := (st.m_avatars.getAvatarFrame load index).2 })

/-- `SoftVideoCompositor::getSyncInputFrame` (`SoftVideoCompositor.cpp:860-874`). -/
def getSyncInputFrame (load : String → Option VideoFrame)
    (st : SoftVideoCompositor) (index : Nat) (sync_timeStamp : Int) :
    Option PickedFrame × SoftVideoCompositor :=
  if ¬ (st.m_inputs index).m_active then
    ((st.m_avatars.getAvatarFrame load index).1.map .fromAvatar,
     { st with m_avatars := (st.m_avatars.getAvatarFrame load index).2 })
  else if ¬ (st.m_inputs index).isSyncEnabled then
    ((st.m_inputs index).popInput.1.map .fromQueue,
     { st with m_inputs := updIn st.m_inputs index (st.m_inputs index).popInput.2 })
  else
    (((st.m_inputs index).get_sync_frame sync_timeStamp).1.map .fromQueue,
     { st with m_inputs :=
        (updIn st.m_inputs index
          ((st.m_inputs index).get_sync_frame sync_timeStamp).2) })

/-! ## SoftFrameGenerator frame selection (`layout_regions`) -/

/-- One step of the sync-window scan in `SoftFrameGenerator::layout_regions`
(`SoftVideoCompositor.cpp:549-566`): skip inputs that are not sync enabled
or whose `front()` / `back()` is null, otherwise fold the front timestamp
into the window minimum and the back timestamp into the window maximum,
re-seeding an accumulator that equals the sentinel -1. -/
def rangeStep (g : Nat → SoftInput) (acc : Int × Int) (e : LayoutEntry) :
    Int × Int :=
  if ¬ (g e.input).isSyncEnabled then acc
  else
    match (g e.input).front, (g e.input).back with
    | some ff, some bf =>
        ( if acc.1 = -1 then ff.sync_timeStamp
          else if acc.1 < ff.sync_timeStamp then ff.sync_timeStamp
          else acc.1
        , if acc.2 = -1 then bf.sync_timeStamp
          else if acc.2 > bf.sync_timeStamp then bf.sync_timeStamp
          else acc.2 )
    | _, _ => acc

/-- The `(min_sync_timeStamp, max_sync_timeStamp)` pair computed at the top
of `SoftFrameGenerator::layout_regions` (`SoftVideoCompositor.cpp:547-566`),
both starting at the sentinel -1. -/
def computeRange (g : Nat → SoftInput) (regions : LayoutSolution) : Int × Int :=
  regions.foldl (rangeStep g) (-1, -1)

/-- Accumulator update `max` with the sentinel -1 standing for "unset":
the reading of the spec's `min_sync := max(min_sync, front.sync_timeStamp)`. -/
def maxUnset (acc v : Int) : Int := if acc = -1 then v else max acc v

/-- Accumulator update `min` with the sentinel -1 standing for "unset". -/
def minUnset (acc v : Int) : Int := if acc = -1 then v else min acc v

/-- Sync timestamp at the queue front, -1 on an empty queue. -/
def frontSyncTS (s : SoftInput) : Int :=
  match s.m_frame_queue with
  | [] => -1
  | f :: _ => f.sync_timeStamp

/-- Sync timestamp at the queue back, -1 on an empty queue. -/
def backSyncTS (s : SoftInput) : Int :=
  match s.m_frame_queue.getLast? with
  | none => -1
  | some f => f.sync_timeStamp

/-- The spec's filter: a region participates in the sync window exactly
when its input has `isSyncEnabled()` and a non-empty queue. -/
def syncCapable (s : SoftInput) : Bool :=
  s.isSyncEnabled && ¬ s.m_frame_queue.isEmpty

/-- Whether a layout entry's input is sync-capable. -/
def capEntry (g : Nat → SoftInput) (e : LayoutEntry) : Bool :=
  syncCapable (g e.input)

/-- Fold step taking the maximum front sync timestamp, -1 as unset. -/
def specMinStep (g : Nat → SoftInput) (a : Int) (e : LayoutEntry) : Int :=
  maxUnset a (frontSyncTS (g e.input))

/-- Fold step taking the minimum back sync timestamp, -1 as unset. -/
def specMaxStep (g : Nat → SoftInput) (a : Int) (e : LayoutEntry) : Int :=
  minUnset a (backSyncTS (g e.input))

/-- Spec-side formulation of the sync window: `min_sync` is the maximum of
the front sync timestamps and `max_sync` the minimum of the back sync
timestamps, over exactly the sync-capable regions, with -1 as "unset". -/
def specRange (g : Nat → SoftInput) (regions : LayoutSolution) : Int × Int :=
  ( (regions.filter (capEntry g)).foldl (specMinStep g) (-1)
  , (regions.filter (capEntry g)).foldl (specMaxStep g) (-1) )

/-- The per-region frame pull of `layout_regions` with a fixed window
`(mn, mx)` (`SoftVideoCompositor.cpp:572-585`): unsynced mode when
`mx = -1`, hold mode (`getSyncInputFrame(-1)`) when `mn > mx`, sync mode
(`getSyncInputFrame(mx)`) otherwise; the picks are collected in region
order and the queue state is threaded through. -/
def selectLoop (load : String → Option VideoFrame) (mn mx : Int) :
    SoftVideoCompositor → LayoutSolution →
    List (Option PickedFrame) × SoftVideoCompositor
  | st, [] => ([], st)
  | st, e :: rest =>
      let (pick, st1) :=
        if mx = -1 then getInputFrame load st e.input
        else if mn > mx then getSyncInputFrame load st e.input (-1)
        else getSyncInputFrame load st e.input mx
      let (ps, st2) := selectLoop load mn mx st1 rest
      (pick :: ps, st2)

/-- Frame selection of one composition pass
(`SoftFrameGenerator::layout_regions`, `SoftVideoCompositor.cpp:536-585`):
compute the sync window over the layout, then pull one frame per region.
Pixel placement of the picked frames (`SoftVideoCompositor.cpp:587-649`)
is outside the modelled state. -/
def selectRegions (load : String → Option VideoFrame)
    (st : SoftVideoCompositor) (regions : LayoutSolution) :
    List (Option PickedFrame) × SoftVideoCompositor :=
  selectLoop load (computeRange st.m_inputs regions).1
    (computeRange st.m_inputs regions).2 st regions

/-- Spec-side unsynced pass: plain `getInputFrame` for every region. -/
def selectAllUnsynced (load : String → Option VideoFrame) :
    SoftVideoCompositor → LayoutSolution →
    List (Option PickedFrame) × SoftVideoCompositor
  | st, [] => ([], st)
  | st, e :: rest =>
      let (pick, st1) := getInputFrame load st e.input
      let (ps, st2) := selectAllUnsynced load st1 rest
      (pick :: ps, st2)

/-- Spec-side synchronized pass: `getSyncInputFrame` at a fixed target for
every region (`target = -1` is hold mode, otherwise sync mode). -/
def selectAllSync (load : String → Option VideoFrame) (target : Int) :
    SoftVideoCompositor → LayoutSolution →
    List (Option PickedFrame) × SoftVideoCompositor
  | st, [] => ([], st)
  | st, e :: rest =>
      let (pick, st1) := getSyncInputFrame load st e.input target
      let (ps, st2) := selectAllSync load target st1 rest
      (pick :: ps, st2)

/-! ## SoftFrameGenerator fps quantization and tick dispatch -/

/-- The doubling loop of the `SoftFrameGenerator` constructor
(`SoftVideoCompositor.cpp:356-362`): starting at `fps`, double while below
`maxFps`.  The source loop does not terminate for `fps = 0`; the model
guards on `0 < fps` and every theorem assumes a positive minimum fps. -/
def fpsDouble (maxFps fps : Nat) : Nat :=
  if 0 < fps ∧ fps < maxFps then fpsDouble maxFps (fps * 2) else fps
termination_by maxFps - fps
decreasing_by omega

/-- The `m_maxSupportedFps` actually stored by the constructor
(`SoftVideoCompositor.cpp:363-369`): if the doubling loop overshoots
`maxFps`, degrade it to `minFps`. -/
def effectiveMaxFps (maxFps minFps : Nat) : Nat :=
  if maxFps < fpsDouble maxFps minFps then minFps else maxFps

/-- The scan loop of `SoftFrameGenerator::isSupported`
(`SoftVideoCompositor.cpp:441-447`): double `n` from `minFps` looking for
an exact hit on `fps`.  As with the constructor loop, `0 < n` guards the
model against the source's non-termination at `n = 0`. -/
def supScan (maxFps fps n : Nat) : Bool :=
  if 0 < n ∧ n ≤ maxFps then
    if n = fps then true else supScan maxFps fps (n * 2)
  else false
termination_by maxFps + 1 - n
decreasing_by omega

/-- `SoftFrameGenerator::isSupported` (`SoftVideoCompositor.cpp:436-450`),
taking the stored `m_minSupportedFps` / `m_maxSupportedFps` as arguments.
The width and height parameters are ignored, as in the source. -/
def isSupported (minFps maxFps width height fps : Nat) : Bool :=
  if fps > maxFps ∨ fps < minFps then false
  else supScan maxFps fps minFps

/-- One registered output (`Output_t`, destination abstracted to an id). -/
structure Output_t where
  width : Nat
  height : Nat
  fps : Nat
  dest : Nat
deriving DecidableEq, Repr

/-- `SoftFrameGenerator::addOutput` (`SoftVideoCompositor.cpp:452-462`):
append the output to the bucket at index `maxFps / fps - 1` of
`m_outputs`. -/
def addOutput (maxFps : Nat) (outputs : List (List Output_t))
    (width height fps dst : Nat) : List (List Output_t) :=
  let index := maxFps / fps - 1
  outputs.set index (outputs.getD index [] ++ [⟨width, height, fps, dst⟩])

/-- The counter advance at the end of `SoftFrameGenerator::onTimeout`
(`SoftVideoCompositor.cpp:527`): `m_counter = (m_counter + 1) % m_counterMax`. -/
def counterTick (counterMax counter : Nat) : Nat :=
  (counter + 1) % counterMax

/-- Value of `m_counter` at the n-th tick, starting from 0
(`SoftVideoCompositor.cpp:346,371`). -/
def counterAt (counterMax : Nat) : Nat → Nat
  | 0 => 0
  | n + 1 => counterTick counterMax (counterAt counterMax n)

/-- The dispatch test of `onTimeout` for bucket `i`
(`SoftVideoCompositor.cpp:484-486,512-514`): the bucket is served when
`m_counter % (i + 1) == 0`. -/
def bucketFires (counter i : Nat) : Bool :=
  counter % (i + 1) == 0

/-- Whether the output bucket of relative period `p` (stored at index
`p - 1`) is served at the n-th tick, assuming the bucket is non-empty and
frame generation succeeded on that tick (pool exhaustion, which skips a
whole tick, is not modelled). -/
def deliversAtTick (counterMax p n : Nat) : Bool :=
  bucketFires (counterAt counterMax n) (p - 1)

/-! ## Helper lemmas about the queue operations -/

theorem syncAdvance_decomp (t : Int) :
    ∀ q : List SoftInputFrame, q ≠ [] →
      ∃ dropped, q = dropped ++ syncAdvance t q ∧
        (∀ f ∈ dropped, f.sync_timeStamp < t) ∧
        syncAdvance t q ≠ [] ∧
        ∀ f, (syncAdvance t q).head? = some f →
          t ≤ f.sync_timeStamp ∨ syncAdvance t q = [f] := by
  intro q
  induction q with
  | nil => intro h; exact absurd rfl h
  | cons a l ih =>
    intro _
    cases l with
    | nil =>
      refine ⟨[], by simp [syncAdvance], by simp, by simp [syncAdvance], ?_⟩
      intro f hf
      simp [syncAdvance] at hf
      right
      simp [syncAdvance, hf]
    | cons b m =>
      by_cases hlt : a.sync_timeStamp < t
      · obtain ⟨d, hd, hall, hne, hhead⟩ := ih (by simp)
        rw [show syncAdvance t (a :: b :: m) = syncAdvance t (b :: m) from by
          simp [syncAdvance, hlt]]
        refine ⟨a :: d, ?_, ?_, hne, hhead⟩
        · simpa using hd
        · intro f hf
          rcases List.mem_cons.mp hf with h | h
          · subst h; exact hlt
          · exact hall f h
      · rw [show syncAdvance t (a :: b :: m) = a :: b :: m from by
          simp [syncAdvance, hlt]]
        refine ⟨[], by simp, by simp, by simp, ?_⟩
        intro f hf
        simp only [List.head?_cons, Option.some.injEq] at hf
        subst hf
        exact Or.inl (le_of_not_lt hlt)

theorem syncAdvance_getLast (t : Int) (q : List SoftInputFrame) (hq : q ≠ []) :
    (syncAdvance t q).getLast? = q.getLast? := by
  obtain ⟨d, hd, -, hne, -⟩ := syncAdvance_decomp t q hq
  conv_rhs => rw [hd]
  rw [List.getLast?_append_of_ne_nil d hne]

theorem syncAdvance_suffix (t : Int) (q : List SoftInputFrame) :
    syncAdvance t q <:+ q := by
  cases q with
  | nil => simp [syncAdvance]
  | cons a l =>
    obtain ⟨d, hd, -, -, -⟩ := syncAdvance_decomp t (a :: l) (by simp)
    exact ⟨d, hd.symm⟩

theorem syncAdvance_ne_nil (t : Int) (q : List SoftInputFrame) (hq : q ≠ []) :
    syncAdvance t q ≠ [] := by
  obtain ⟨-, -, -, hne, -⟩ := syncAdvance_decomp t q hq
  exact hne

/-! ## C6: popInput -/

/-- C6: on an active input with a non-empty queue, `popInput` returns the
front frame and removes it from the queue if and only if the queue holds
more than one frame, so the queue length never drops below 1. -/
theorem popInput_front_floor (s : SoftInput)
    (hact : s.m_active = true) (hne : s.m_frame_queue ≠ []) :
    s.popInput.1 = s.m_frame_queue.head? ∧
    (1 < s.m_frame_queue.length →
      s.popInput.2.m_frame_queue = s.m_frame_queue.tail) ∧
    (s.m_frame_queue.length = 1 → s.popInput.2 = s) ∧
    s.popInput.2.m_frame_queue ≠ [] := by
  rcases hq : s.m_frame_queue with - | ⟨f, rest⟩
  · exact absurd hq hne
  · rcases rest with - | ⟨g, gs⟩
    · simp [SoftInput.popInput, hact, hq]
    · simp [SoftInput.popInput, hact, hq]

/-- Concrete input used in the C6 witness. -/
def c6input : SoftInput :=
  { m_active := true, m_sync_enabled := true, m_frame_sync_enabled := true
  , m_frame_queue := [⟨1, 0, true, 5⟩, ⟨2, 0, true, 8⟩] }

/-- Witness for C6 at a two-frame queue. -/
theorem popInput_front_floor_witness :
    c6input.popInput.1 = c6input.m_frame_queue.head? ∧
    (1 < c6input.m_frame_queue.length →
      c6input.popInput.2.m_frame_queue = c6input.m_frame_queue.tail) ∧
    (c6input.m_frame_queue.length = 1 → c6input.popInput.2 = c6input) ∧
    c6input.popInput.2.m_frame_queue ≠ [] :=
  popInput_front_floor c6input (by decide) (by decide)

/-! ## C2: get_sync_frame -/

/-- C2: on an active input with a non-empty queue, `get_sync_frame (-1)`
returns the front frame and removes nothing; for any other target the
frames removed from the front all have `sync_timeStamp` below the target,
removal stops once the front reaches the target or a single frame remains,
the resulting front is returned, and the queue never becomes empty. -/
theorem get_sync_frame_spec (s : SoftInput) (t : Int)
    (hact : s.m_active = true) (hne : s.m_frame_queue ≠ []) :
    (t = -1 → s.get_sync_frame t = (s.m_frame_queue.head?, s)) ∧
    (t ≠ -1 →
      (∃ dropped,
        s.m_frame_queue = dropped ++ (s.get_sync_frame t).2.m_frame_queue ∧
        (∀ f ∈ dropped, f.sync_timeStamp < t) ∧
        ∀ f, (s.get_sync_frame t).2.m_frame_queue.head? = some f →
          t ≤ f.sync_timeStamp ∨ (s.get_sync_frame t).2.m_frame_queue = [f]) ∧
      (s.get_sync_frame t).1 = (s.get_sync_frame t).2.m_frame_queue.head? ∧
      (s.get_sync_frame t).2.m_frame_queue ≠ []) := by
  constructor
  · intro ht
    subst ht
    rcases hq : s.m_frame_queue with - | ⟨a, l⟩
    · exact absurd hq hne
    · simp [SoftInput.get_sync_frame, hact, hq]
  · intro ht
    rcases hq : s.m_frame_queue with - | ⟨a, l⟩
    · exact absurd hq hne
    · have hgs : s.get_sync_frame t =
          ((syncAdvance t (a :: l)).head?,
           { s with m_frame_queue := syncAdvance t (a :: l) }) := by
        simp [SoftInput.get_sync_frame, hact, hq, ht]
      obtain ⟨d, hd, hall, hne2, hhead⟩ := syncAdvance_decomp t (a :: l) (by simp)
      rw [hgs]
      exact ⟨⟨d, hd, hall, hhead⟩, rfl, hne2⟩

/-- Concrete input used in the C2 witness. -/
def c2input : SoftInput :=
  { m_active := true, m_sync_enabled := true, m_frame_sync_enabled := true
  , m_frame_queue := [⟨1, 0, true, 5⟩, ⟨2, 0, true, 8⟩, ⟨3, 0, true, 11⟩] }

/-- Witness for C2 at target 7 on a three-frame queue. -/
theorem get_sync_frame_spec_witness :
    ((7 : Int) = -1 →
      c2input.get_sync_frame 7 = (c2input.m_frame_queue.head?, c2input)) ∧
    ((7 : Int) ≠ -1 →
      (∃ dropped,
        c2input.m_frame_queue =
          dropped ++ (c2input.get_sync_frame 7).2.m_frame_queue ∧
        (∀ f ∈ dropped, f.sync_timeStamp < 7) ∧
        ∀ f, (c2input.get_sync_frame 7).2.m_frame_queue.head? = some f →
          (7 : Int) ≤ f.sync_timeStamp ∨
            (c2input.get_sync_frame 7).2.m_frame_queue = [f]) ∧
      (c2input.get_sync_frame 7).1 =
        (c2input.get_sync_frame 7).2.m_frame_queue.head? ∧
      (c2input.get_sync_frame 7).2.m_frame_queue ≠ []) :=
  get_sync_frame_spec c2input 7 (by decide) (by decide)

/-! ## C3: overflow demotion is permanent -/

theorem pushInput_sync_false (s : SoftInput) (f : Frame) (ok : Bool)
    (h : s.m_sync_enabled = false) :
    (s.pushInput f ok).2.m_sync_enabled = false := by
  simp only [SoftInput.pushInput]
  split_ifs <;> simp_all

theorem popInput_sync_eq (s : SoftInput) :
    s.popInput.2.m_sync_enabled = s.m_sync_enabled := by
  simp only [SoftInput.popInput]
  split_ifs
  · rcases s.m_frame_queue with - | ⟨f, rest⟩
    · rfl
    · dsimp only
      split_ifs <;> rfl
  · rfl

theorem get_sync_frame_sync_eq (s : SoftInput) (t : Int) :
    (s.get_sync_frame t).2.m_sync_enabled = s.m_sync_enabled := by
  simp only [SoftInput.get_sync_frame]
  rcases hq : s.m_frame_queue with - | ⟨f, rest⟩
  · split_ifs <;> rfl
  · split_ifs <;> rfl

theorem applyInOp_sync_false (s : SoftInput) (op : InOp)
    (h : s.m_sync_enabled = false) : (applyInOp s op).m_sync_enabled = false := by
  cases op with
  | opSetActive b => simpa [applyInOp, SoftInput.setActive]
  | opPush f ok => exact pushInput_sync_false s f ok h
  | opPop => rw [applyInOp, popInput_sync_eq]; exact h
  | opSyncFrame t => rw [applyInOp, get_sync_frame_sync_eq]; exact h

theorem applyInOps_sync_false (ops : List InOp) (s : SoftInput)
    (h : s.m_sync_enabled = false) : (applyInOps ops s).m_sync_enabled = false := by
  induction ops generalizing s with
  | nil => exact h
  | cons op rest ih =>
    rw [applyInOps, List.foldl_cons]
    exact ih _ (applyInOp_sync_false s op h)

/-- C3: a `pushInput` onto an active input whose queue is full (and whose
conversion succeeds) clears the queue and enqueues the new frame, leaving
exactly one frame, and afterwards `isSyncEnabled()` is false after every
subsequent sequence of operations on that input. -/
theorem pushInput_overflow_permanent (s : SoftInput) (f : Frame)
    (ops : List InOp)
    (hact : s.m_active = true) (hfmt : f.format = FrameFormat.I420)
    (hfull : s.m_frame_queue.length = kMaxQueueSize) :
    (s.pushInput f true).1 = PushOutcome.pushed ∧
    (s.pushInput f true).2.m_frame_queue.length = 1 ∧
    SoftInput.isSyncEnabled (applyInOps ops (s.pushInput f true).2) = false := by
  have hpush : s.pushInput f true =
      (PushOutcome.pushed,
       { m_active := s.m_active, m_sync_enabled := false
       , m_frame_sync_enabled := f.sync_enabled
       , m_frame_queue := [mkInputFrame f] }) := by
    simp [SoftInput.pushInput, hact, hfmt, hfull]
  refine ⟨by rw [hpush], by rw [hpush]; rfl, ?_⟩
  have hsync : (s.pushInput f true).2.m_sync_enabled = false := by rw [hpush]
  have h2 := applyInOps_sync_false ops _ hsync
  simp [SoftInput.isSyncEnabled, h2]

/-- Concrete full-queue input used in the C3 witness. -/
def c3input : SoftInput :=
  { m_active := true, m_sync_enabled := true, m_frame_sync_enabled := true
  , m_frame_queue :=
      [⟨1, 0, true, 1⟩, ⟨2, 0, true, 2⟩, ⟨3, 0, true, 3⟩,
       ⟨4, 0, true, 4⟩, ⟨5, 0, true, 5⟩] }

/-- Concrete sync-enabled frame pushed onto the full queue in the C3 witness. -/
def c3frame : Frame :=
  { format := .I420, payload := 6, timeStamp := 0
  , sync_enabled := true, sync_timeStamp := 6 }

/-- Concrete follow-up operations (including a later sync-enabled push)
used in the C3 witness. -/
def c3ops : List InOp :=
  [.opPush c3frame true, .opSetActive true, .opPop, .opSyncFrame 3]

/-- Witness for C3: after overflowing a five-frame queue the input holds
one frame and stays unsynchronized across further operations. -/
theorem pushInput_overflow_permanent_witness :
    (c3input.pushInput c3frame true).1 = PushOutcome.pushed ∧
    (c3input.pushInput c3frame true).2.m_frame_queue.length = 1 ∧
    SoftInput.isSyncEnabled
      (applyInOps c3ops (c3input.pushInput c3frame true).2) = false :=
  pushInput_overflow_permanent c3input c3frame c3ops
    (by decide) (by decide) (by decide)

/-! ## C9: invalid pushInput -/

/-- Formalization of the C9 claim at one input: whenever the frame format
is not I420 or the input is inactive, the push is a silent drop — no
assertion failure, nothing enqueued, and the input state unchanged. -/
def c9ClaimHolds (s : SoftInput) (f : Frame) (ok : Bool) : Prop :=
  f.format ≠ FrameFormat.I420 ∨ s.m_active = false →
    (s.pushInput f ok).1 ≠ PushOutcome.asserted ∧
    (s.pushInput f ok).1 ≠ PushOutcome.pushed ∧
    (s.pushInput f ok).2 = s

/-- Concrete active empty input used for C9. -/
def c9activeInput : SoftInput :=
  { m_active := true, m_sync_enabled := true
  , m_frame_sync_enabled := false, m_frame_queue := [] }

/-- Concrete non-I420 frame used for C9. -/
def c9badFrame : Frame :=
  { format := .VP8, payload := 0, timeStamp := 0
  , sync_enabled := false, sync_timeStamp := 0 }

/-- C9 counterexample: pushing a non-I420 frame to an active input is not
a silent drop — it fires the `assert(frame.format == FRAME_FORMAT_I420)`
at `SoftVideoCompositor.cpp:208` (an abort with assertions enabled; with
`NDEBUG` the unchecked payload is processed, not dropped). -/
theorem pushInput_invalid_counterexample :
    ¬ c9ClaimHolds c9activeInput c9badFrame true := by
  unfold c9ClaimHolds
  decide

/-- C9 amended: a frame whose format is not I420 trips the assertion
(leaving the queue unchanged but aborting rather than silently dropping),
and a well-formed frame pushed to an inactive input is silently dropped
with no state change and no error to the caller. -/
theorem pushInput_invalid_amended (s : SoftInput) (f : Frame) (ok : Bool) :
    (f.format ≠ FrameFormat.I420 →
      s.pushInput f ok = (PushOutcome.asserted, s)) ∧
    (f.format = FrameFormat.I420 → s.m_active = false →
      s.pushInput f ok = (PushOutcome.droppedInactive, s)) := by
  constructor
  · intro h
    simp [SoftInput.pushInput, h]
  · intro h1 h2
    simp [SoftInput.pushInput, h1, h2]

/-- Concrete inactive input used in the C9 witness. -/
def c9inactiveInput : SoftInput := SoftInput.init

/-- Concrete I420 frame used in the C9 witness. -/
def c9goodFrame : Frame :=
  { format := .I420, payload := 1, timeStamp := 2
  , sync_enabled := false, sync_timeStamp := -1 }

/-- Witness for the amended C9 at both failure modes. -/
theorem pushInput_invalid_amended_witness :
    c9activeInput.pushInput c9badFrame true = (PushOutcome.asserted, c9activeInput) ∧
    c9inactiveInput.pushInput c9goodFrame true =
      (PushOutcome.droppedInactive, c9inactiveInput) :=
  ⟨(pushInput_invalid_amended c9activeInput c9badFrame true).1 (by decide),
   (pushInput_invalid_amended c9inactiveInput c9goodFrame true).2
     (by decide) (by decide)⟩


/-! ## C1: sync window computation and mode dispatch -/

theorem ite_lt_eq_max (a v : Int) : (if a < v then v else a) = max a v := by
  rcases lt_or_ge a v with h | h
  · simp [h, max_eq_right h.le]
  · simp [not_lt_of_ge h, max_eq_left h]

theorem ite_gt_eq_min (a v : Int) : (if a > v then v else a) = min a v := by
  rcases lt_or_ge v a with h | h
  · simp [h, min_eq_right h.le]
  · simp [not_lt_of_ge h, min_eq_left h]

theorem rangeStep_capable (g : Nat → SoftInput) (e : LayoutEntry) (a b : Int)
    (hact : (g e.input).m_active = true)
    (hcap : capEntry g e = true) :
    rangeStep g (a, b) e = (specMinStep g a e, specMaxStep g b e) := by
  have hsync : (g e.input).isSyncEnabled = true := by
    unfold capEntry syncCapable at hcap
    exact (Bool.and_eq_true_iff.mp hcap).1
  have hne : (g e.input).m_frame_queue ≠ [] := by
    unfold capEntry syncCapable at hcap
    have := (Bool.and_eq_true_iff.mp hcap).2
    simpa [List.isEmpty_iff] using this
  rcases hq : (g e.input).m_frame_queue with - | ⟨f, rest⟩
  · exact absurd hq hne
  · have hff : (g e.input).front = some f := by
      simp [SoftInput.front, hact, hq]
    obtain ⟨bf, hbf0⟩ : ∃ bf, (f :: rest).getLast? = some bf :=
      ⟨(f :: rest).getLast (by simp), List.getLast?_eq_getLast _ _⟩
    have hbf : (g e.input).back = some bf := by
      simp [SoftInput.back, hact, hq, hbf0]
    unfold rangeStep specMinStep specMaxStep maxUnset minUnset frontSyncTS backSyncTS
    rw [hsync, hff, hbf, hq, hbf0]
    by_cases ha : a = -1 <;> by_cases hb : b = -1 <;>
      simp [ha, hb, ite_lt_eq_max, ite_gt_eq_min]

theorem rangeStep_skip (g : Nat → SoftInput) (e : LayoutEntry) (a b : Int)
    (h : (g e.input).m_active = true ∨ (g e.input).m_frame_queue = [])
    (hcap : ¬ capEntry g e = true) :
    rangeStep g (a, b) e = (a, b) := by
  unfold rangeStep
  by_cases hs : (g e.input).isSyncEnabled = true
  · have hqe : (g e.input).m_frame_queue = [] := by
      unfold capEntry syncCapable at hcap
      simp [hs, List.isEmpty_iff] at hcap
      exact hcap
    have hfr : (g e.input).front = none := by
      simp [SoftInput.front, hqe]
    rw [hs, hfr]
    simp
  · simp [hs]

theorem rangeFold_eq (g : Nat → SoftInput) :
    ∀ (regions : LayoutSolution) (a b : Int),
      (∀ e ∈ regions, (g e.input).m_active = true ∨ (g e.input).m_frame_queue = []) →
      regions.foldl (rangeStep g) (a, b) =
        ((regions.filter (capEntry g)).foldl (specMinStep g) a,
         (regions.filter (capEntry g)).foldl (specMaxStep g) b) := by
  intro regions
  induction regions with
  | nil => intro a b _; simp
  | cons e rest ih =>
    intro a b h
    have hrest : ∀ x ∈ rest, (g x.input).m_active = true ∨ (g x.input).m_frame_queue = [] :=
      fun x hx => h x (List.mem_cons_of_mem e hx)
    have he := h e (List.mem_cons_self e rest)
    by_cases hcap : capEntry g e = true
    · have hact : (g e.input).m_active = true := by
        rcases he with h1 | h1
        · exact h1
        · exfalso
          unfold capEntry syncCapable at hcap
          simp [h1] at hcap
      rw [List.foldl_cons, rangeStep_capable g e a b hact hcap,
        List.filter_cons_of_pos hcap, List.foldl_cons, List.foldl_cons]
      exact ih _ _ hrest
    · rw [List.foldl_cons, rangeStep_skip g e a b he hcap,
        List.filter_cons_of_neg hcap]
      exact ih _ _ hrest

theorem selectLoop_eq_unsynced (load : String → Option VideoFrame) (mn : Int) :
    ∀ (st : SoftVideoCompositor) (regions : LayoutSolution),
      selectLoop load mn (-1) st regions = selectAllUnsynced load st regions := by
  intro st regions
  induction regions generalizing st with
  | nil => rfl
  | cons e rest ih =>
    rcases hgi : getInputFrame load st e.input with ⟨pick, st1⟩
    simp [selectLoop, selectAllUnsynced, hgi, ih st1]

theorem selectLoop_eq_hold (load : String → Option VideoFrame) (mn mx : Int)
    (hmx : mx ≠ -1) (hgt : mn > mx) :
    ∀ (st : SoftVideoCompositor) (regions : LayoutSolution),
      selectLoop load mn mx st regions = selectAllSync load (-1) st regions := by
  intro st regions
  induction regions generalizing st with
  | nil => rfl
  | cons e rest ih =>
    rcases hgi : getSyncInputFrame load st e.input (-1) with ⟨pick, st1⟩
    simp [selectLoop, selectAllSync, hmx, hgt, hgi, ih st1]

theorem selectLoop_eq_syncmode (load : String → Option VideoFrame) (mn mx : Int)
    (hmx : mx ≠ -1) (hle : ¬ mn > mx) :
    ∀ (st : SoftVideoCompositor) (regions : LayoutSolution),
      selectLoop load mn mx st regions = selectAllSync load mx st regions := by
  intro st regions
  induction regions generalizing st with
  | nil => rfl
  | cons e rest ih =>
    rcases hgi : getSyncInputFrame load st e.input mx with ⟨pick, st1⟩
    simp [selectLoop, selectAllSync, hmx, hle, hgi, ih st1]

/-- C1: the sync window of a composition pass equals min_sync = maximum of
front sync timestamps and max_sync = minimum of back sync timestamps over
exactly the sync-capable regions (sync enabled with a non-empty queue, -1
standing for unset), and the pass runs unsynced (`getInputFrame` per
region) when max_sync = -1, in hold mode (`getSyncInputFrame(-1)`) when
min_sync > max_sync, and in sync mode (`getSyncInputFrame(max_sync)`)
otherwise.  Inactive inputs are assumed to have empty queues, which every
reachable state satisfies since deactivation clears the queue. -/
theorem layout_sync_window_and_mode (load : String → Option VideoFrame)
    (st : SoftVideoCompositor) (regions : LayoutSolution)
    (hact : ∀ e ∈ regions, (st.m_inputs e.input).m_active = true ∨
      (st.m_inputs e.input).m_frame_queue = []) :
    computeRange st.m_inputs regions = specRange st.m_inputs regions ∧
    ((computeRange st.m_inputs regions).2 = -1 →
      selectRegions load st regions = selectAllUnsynced load st regions) ∧
    ((computeRange st.m_inputs regions).2 ≠ -1 →
      (computeRange st.m_inputs regions).1 > (computeRange st.m_inputs regions).2 →
      selectRegions load st regions = selectAllSync load (-1) st regions) ∧
    ((computeRange st.m_inputs regions).2 ≠ -1 →
      ¬ (computeRange st.m_inputs regions).1 > (computeRange st.m_inputs regions).2 →
      selectRegions load st regions =
        selectAllSync load (computeRange st.m_inputs regions).2 st regions) := by
  refine ⟨rangeFold_eq st.m_inputs regions (-1) (-1) hact, ?_, ?_, ?_⟩
  · intro h
    unfold selectRegions
    rw [h]
    exact selectLoop_eq_unsynced load _ st regions
  · intro h1 h2
    unfold selectRegions
    exact selectLoop_eq_hold load _ _ h1 h2 st regions
  · intro h1 h2
    unfold selectRegions
    exact selectLoop_eq_syncmode load _ _ h1 h2 st regions

/-! ## Concrete scenarios -/

/-- Queue frame with a given sync timestamp. -/
def tsFrame (ts : Int) : SoftInputFrame :=
  { buffer := 0, timeStamp := 0, sync_enabled := true, sync_timeStamp := ts }

/-- Active sync-enabled input holding the given sync timestamps. -/
def syncInput (l : List Int) : SoftInput :=
  { m_active := true, m_sync_enabled := true, m_frame_sync_enabled := true
  , m_frame_queue := l.map tsFrame }

/-- Full-canvas region. -/
def fullRegion : Region := ⟨⟨0, 1⟩, ⟨0, 1⟩, ⟨1, 1⟩, ⟨1, 1⟩⟩

/-- Avatar loader that always fails. -/
def loadNone : String → Option VideoFrame := fun _ => none

/-- Two-input compositor used in the C1 witness. -/
def c1st : SoftVideoCompositor :=
  { m_inputs := fun i =>
      if i = 0 then syncInput [3, 4]
      else if i = 1 then syncInput [2, 6]
      else SoftInput.init
  , m_avatars := AvatarManager.init }

/-- Layout used in the C1 witness. -/
def c1regions : LayoutSolution := [⟨0, fullRegion⟩, ⟨1, fullRegion⟩]

/-- Witness for C1 on a two-input layout. -/
theorem layout_sync_window_and_mode_witness :
    computeRange c1st.m_inputs c1regions = specRange c1st.m_inputs c1regions ∧
    ((computeRange c1st.m_inputs c1regions).2 = -1 →
      selectRegions loadNone c1st c1regions =
        selectAllUnsynced loadNone c1st c1regions) ∧
    ((computeRange c1st.m_inputs c1regions).2 ≠ -1 →
      (computeRange c1st.m_inputs c1regions).1 >
          (computeRange c1st.m_inputs c1regions).2 →
      selectRegions loadNone c1st c1regions =
        selectAllSync loadNone (-1) c1st c1regions) ∧
    ((computeRange c1st.m_inputs c1regions).2 ≠ -1 →
      ¬ (computeRange c1st.m_inputs c1regions).1 >
          (computeRange c1st.m_inputs c1regions).2 →
      selectRegions loadNone c1st c1regions =
        selectAllSync loadNone (computeRange c1st.m_inputs c1regions).2
          c1st c1regions) :=
  layout_sync_window_and_mode loadNone c1st c1regions (by decide)

/-! ## C4: the literal sync-alignment scenario -/

/-- Compositor state of scenario S3: input 0 holds sync timestamps
[100, 200, 300, 400], input 1 holds [250, 350, 450]. -/
def c4st : SoftVideoCompositor :=
  { m_inputs := fun i =>
      if i = 0 then syncInput [100, 200, 300, 400]
      else if i = 1 then syncInput [250, 350, 450]
      else SoftInput.init
  , m_avatars := AvatarManager.init }

/-- Layout of scenario S3: one region per input. -/
def c4regions : LayoutSolution := [⟨0, fullRegion⟩, ⟨1, fullRegion⟩]

/-- C4 counterexample: on the claimed queues the code computes
min_sync = 250 and max_sync = 400 — the minimum of the back timestamps
400 and 450 — not max_sync = 300 as the claim states. -/
theorem sync_alignment_counterexample :
    computeRange c4st.m_inputs c4regions = (250, 400) ∧
    (computeRange c4st.m_inputs c4regions).2 ≠ 300 := by
  decide

/-- C4 amended: with input 0 at [100, 200, 300, 400] and input 1 at
[250, 350, 450], a tick computes min_sync = 250 and max_sync = 400 and
runs in sync mode; both regions display the first frame with
sync_timeStamp ≥ 400: input 0 advances to the frame stamped 400 and
input 1 to the frame stamped 450. -/
theorem sync_alignment_amended :
    computeRange c4st.m_inputs c4regions = (250, 400) ∧
    (selectRegions loadNone c4st c4regions).1 =
      [some (.fromQueue (tsFrame 400)), some (.fromQueue (tsFrame 450))] ∧
    ((selectRegions loadNone c4st c4regions).2.m_inputs 0).m_frame_queue =
      [tsFrame 400] ∧
    ((selectRegions loadNone c4st c4regions).2.m_inputs 1).m_frame_queue =
      [tsFrame 450] := by
  decide

/-! ## C5: sync mode reaches the target timestamp -/

/-- How one input's state can change across the frame pulls of a single
composition pass: the activity and sync flags are untouched, the queue
only loses frames at the front and never becomes empty. -/
def InputEvolved (s0 s : SoftInput) : Prop :=
  s.m_active = s0.m_active ∧
  s.m_sync_enabled = s0.m_sync_enabled ∧
  s.m_frame_sync_enabled = s0.m_frame_sync_enabled ∧
  s.m_frame_queue <:+ s0.m_frame_queue ∧
  (s0.m_frame_queue ≠ [] → s.m_frame_queue ≠ [])

theorem inputEvolved_refl (s : SoftInput) : InputEvolved s s :=
  ⟨rfl, rfl, rfl, List.suffix_refl _, fun h => h⟩

theorem inputEvolved_trans {a b c : SoftInput}
    (h1 : InputEvolved a b) (h2 : InputEvolved b c) : InputEvolved a c := by
  obtain ⟨x1, x2, x3, x4, x5⟩ := h1
  obtain ⟨y1, y2, y3, y4, y5⟩ := h2
  exact ⟨y1.trans x1, y2.trans x2, y3.trans x3, y4.trans x4, fun h => y5 (x5 h)⟩

theorem suffix_getLast {l1 l2 : List SoftInputFrame}
    (h : l1 <:+ l2) (hne : l1 ≠ []) : l2.getLast? = l1.getLast? := by
  obtain ⟨t, rfl⟩ := h
  exact List.getLast?_append_of_ne_nil t hne

theorem popInput_evolve (s : SoftInput) : InputEvolved s s.popInput.2 := by
  unfold SoftInput.popInput
  rcases hq : s.m_frame_queue with - | ⟨f, rest⟩
  · split_ifs <;> exact inputEvolved_refl s
  · by_cases ha : s.m_active = true
    · rw [if_neg (by simp [ha])]
      dsimp only
      by_cases he : rest.isEmpty
      · rw [if_pos he]
        exact inputEvolved_refl s
      · rw [if_neg he]
        refine ⟨rfl, rfl, rfl, ?_, ?_⟩
        · dsimp only
          rw [hq]
          exact List.suffix_cons f rest
        · intro _
          dsimp only
          simpa [List.isEmpty_iff] using he
    · rw [if_pos (by simp [ha])]
      exact inputEvolved_refl s

theorem get_sync_frame_evolve (s : SoftInput) (t : Int) :
    InputEvolved s (s.get_sync_frame t).2 := by
  unfold SoftInput.get_sync_frame
  rcases hq : s.m_frame_queue with - | ⟨f, rest⟩
  · split_ifs <;> exact inputEvolved_refl s
  · by_cases ha : s.m_active = true
    · rw [if_neg (by simp [ha])]
      dsimp only
      by_cases ht : t = -1
      · rw [if_pos ht]
        exact inputEvolved_refl s
      · rw [if_neg ht]
        refine ⟨rfl, rfl, rfl, ?_, ?_⟩
        · dsimp only
          rw [hq]
          exact syncAdvance_suffix t (f :: rest)
        · intro _
          dsimp only
          exact syncAdvance_ne_nil t (f :: rest) (by simp)
    · rw [if_pos (by simp [ha])]
      exact inputEvolved_refl s

theorem updIn_self (g : Nat → SoftInput) (i : Nat) (s : SoftInput) :
    updIn g i s i = s := by simp [updIn]

theorem updIn_other (g : Nat → SoftInput) (i : Nat) (s : SoftInput) (j : Nat)
    (h : ¬ j = i) : updIn g i s j = g j := by simp [updIn, h]

theorem getSyncInputFrame_evolve (load : String → Option VideoFrame)
    (st : SoftVideoCompositor) (r : Nat) (t : Int) (j : Nat) :
    InputEvolved (st.m_inputs j) ((getSyncInputFrame load st r t).2.m_inputs j) := by
  unfold getSyncInputFrame
  by_cases ha : (st.m_inputs r).m_active = true
  · rw [if_neg (by simp [ha])]
    by_cases hs : (st.m_inputs r).isSyncEnabled = true
    · rw [if_neg (by simp [hs])]
      dsimp only
      by_cases hj : j = r
      · subst hj
        rw [updIn_self]
        exact get_sync_frame_evolve _ t
      · rw [updIn_other _ _ _ _ hj]
        exact inputEvolved_refl _
    · rw [if_pos (by simpa using hs)]
      dsimp only
      by_cases hj : j = r
      · subst hj
        rw [updIn_self]
        exact popInput_evolve _
      · rw [updIn_other _ _ _ _ hj]
        exact inputEvolved_refl _
  · rw [if_pos (by simpa using ha)]
    exact inputEvolved_refl _

theorem selectAllSync_pick_spec (load : String → Option VideoFrame) (mx : Int)
    (hmx : mx ≠ -1) :
    ∀ (regions : LayoutSolution) (st0 st : SoftVideoCompositor),
      (∀ j, InputEvolved (st0.m_inputs j) (st.m_inputs j)) →
      ∀ (i : Nat) (e : LayoutEntry) (pick : Option PickedFrame),
        regions[i]? = some e →
        (selectAllSync load mx st regions).1[i]? = some pick →
        syncCapable (st0.m_inputs e.input) = true →
        (st0.m_inputs e.input).m_active = true →
        ∃ f, pick = some (.fromQueue f) ∧
          (mx ≤ f.sync_timeStamp ∨
            (st0.m_inputs e.input).m_frame_queue.getLast? = some f) := by
  intro regions
  induction regions with
  | nil =>
    intro st0 st hev i e pick hre
    simp at hre
  | cons e0 rest ih =>
    intro st0 st hev i e pick hre hpk hcap hact
    rcases hsel : getSyncInputFrame load st e0.input mx with ⟨pick0, st1⟩
    have hsel1 : (selectAllSync load mx st (e0 :: rest)).1 =
        pick0 :: (selectAllSync load mx st1 rest).1 := by
      simp [selectAllSync, hsel]
    cases i with
    | zero =>
      have he : e0 = e := by simpa using hre
      subst he
      rw [hsel1] at hpk
      have hpick : pick0 = pick := by simpa using hpk
      subst hpick
      have hcap2 := hcap
      unfold syncCapable at hcap2
      have hs0sync : (st0.m_inputs e0.input).isSyncEnabled = true :=
        (Bool.and_eq_true_iff.mp hcap2).1
      have hne0 : (st0.m_inputs e0.input).m_frame_queue ≠ [] := by
        have := (Bool.and_eq_true_iff.mp hcap2).2
        simpa [List.isEmpty_iff] using this
      obtain ⟨he1, he2, he3, he4, he5⟩ := hev e0.input
      have hact2 : (st.m_inputs e0.input).m_active = true := he1.trans hact
      have hsync2 : (st.m_inputs e0.input).isSyncEnabled = true := by
        unfold SoftInput.isSyncEnabled at hs0sync ⊢
        rw [he2, he3]
        exact hs0sync
      have hne2 : (st.m_inputs e0.input).m_frame_queue ≠ [] := he5 hne0
      have hgs : getSyncInputFrame load st e0.input mx =
          (((st.m_inputs e0.input).get_sync_frame mx).1.map .fromQueue,
           { st with m_inputs :=
              (updIn st.m_inputs e0.input
                ((st.m_inputs e0.input).get_sync_frame mx).2) }) := by
        unfold getSyncInputFrame
        rw [if_neg (by simp [hact2]), if_neg (by simp [hsync2])]
      rw [hgs] at hsel
      have hpick0 : pick0 = ((st.m_inputs e0.input).get_sync_frame mx).1.map .fromQueue := by
        have := congrArg Prod.fst hsel
        simpa using this.symm
      rcases hq : (st.m_inputs e0.input).m_frame_queue with - | ⟨a, l⟩
      · exact absurd hq hne2
      · have hgsf : (st.m_inputs e0.input).get_sync_frame mx =
            ((syncAdvance mx (a :: l)).head?,
             { st.m_inputs e0.input with m_frame_queue := syncAdvance mx (a :: l) }) := by
          unfold SoftInput.get_sync_frame
          rw [if_neg (by simp [hact2]), hq]
          dsimp only
          rw [if_neg hmx]
        obtain ⟨d, hd, hall, hneq, hhead⟩ := syncAdvance_decomp mx (a :: l) (by simp)
        obtain ⟨f0, hf0⟩ : ∃ f0, (syncAdvance mx (a :: l)).head? = some f0 := by
          rcases hq2 : syncAdvance mx (a :: l) with - | ⟨x, xs⟩
          · exact absurd hq2 hneq
          · exact ⟨x, by simp [hq2]⟩
        refine ⟨f0, ?_, ?_⟩
        · rw [hpick0, hgsf]
          simp [hf0]
        · rcases hhead f0 hf0 with h | h
          · exact Or.inl h
          · right
            have hlast : (a :: l).getLast? = some f0 := by
              rw [← syncAdvance_getLast mx (a :: l) (by simp), h]
              rfl
            have hsfx := suffix_getLast he4 hne2
            rw [hsfx, hq]
            exact hlast
    | succ n =>
      have hre2 : rest[n]? = some e := by simpa using hre
      rw [hsel1] at hpk
      have hpk2 : (selectAllSync load mx st1 rest).1[n]? = some pick := by
        simpa using hpk
      have hev1 : ∀ j, InputEvolved (st0.m_inputs j) (st1.m_inputs j) := by
        intro j
        have h2 : InputEvolved (st.m_inputs j) (st1.m_inputs j) := by
          have h3 := getSyncInputFrame_evolve load st e0.input mx j
          rw [hsel] at h3
          exact h3
        exact inputEvolved_trans (hev j) h2
      exact ih st0 st1 hev1 n e pick hre2 hpk2 hcap hact

/-- C5: when a composition runs in sync mode with window
`[min_sync, max_sync]` (and sync timestamps are monotone within each
queue), the frame chosen for every sync-capable region either has
`sync_timeStamp ≥ max_sync` or is the single remaining still-image frame,
the original back of that input's queue. -/
theorem sync_mode_reaches_target (load : String → Option VideoFrame)
    (st : SoftVideoCompositor) (regions : LayoutSolution)
    (hact : ∀ e ∈ regions, (st.m_inputs e.input).m_active = true ∨
      (st.m_inputs e.input).m_frame_queue = [])
    (hmono : ∀ e ∈ regions, List.Pairwise
      (fun a b => a.sync_timeStamp ≤ b.sync_timeStamp)
      (st.m_inputs e.input).m_frame_queue)
    (hmx : (computeRange st.m_inputs regions).2 ≠ -1)
    (hle : ¬ (computeRange st.m_inputs regions).1 >
      (computeRange st.m_inputs regions).2)
    (i : Nat) (e : LayoutEntry) (pick : Option PickedFrame)
    (hre : regions[i]? = some e)
    (hpk : (selectRegions load st regions).1[i]? = some pick)
    (hcap : syncCapable (st.m_inputs e.input) = true) :
    ∃ f, pick = some (.fromQueue f) ∧
      ((computeRange st.m_inputs regions).2 ≤ f.sync_timeStamp ∨
        (st.m_inputs e.input).m_frame_queue.getLast? = some f) := by
  have hsel : selectRegions load st regions =
      selectAllSync load (computeRange st.m_inputs regions).2 st regions := by
    unfold selectRegions
    exact selectLoop_eq_syncmode load _ _ hmx hle st regions
  rw [hsel] at hpk
  have hmem : e ∈ regions := by
    have := List.getElem?_eq_some.mp hre
    obtain ⟨hlt, hget⟩ := this
    exact hget ▸ List.getElem_mem hlt
  have hact2 : (st.m_inputs e.input).m_active = true := by
    rcases hact e hmem with h | h
    · exact h
    · exfalso
      unfold syncCapable at hcap
      simp [h] at hcap
  exact selectAllSync_pick_spec load _ hmx regions st st
    (fun j => inputEvolved_refl _) i e pick hre hpk hcap hact2

/-- Two-input compositor used in the C5 witness. -/
def c5st : SoftVideoCompositor :=
  { m_inputs := fun i =>
      if i = 0 then syncInput [10, 20]
      else if i = 1 then syncInput [15, 25]
      else SoftInput.init
  , m_avatars := AvatarManager.init }

/-- Layout used in the C5 witness. -/
def c5regions : LayoutSolution := [⟨0, fullRegion⟩, ⟨1, fullRegion⟩]

/-- Witness for C5: with queues [10, 20] and [15, 25] the window is
(15, 20) and region 0 picks the frame stamped 20 ≥ max_sync. -/
theorem sync_mode_reaches_target_witness :
    ∃ f, some (PickedFrame.fromQueue (tsFrame 20)) = some (.fromQueue f) ∧
      ((computeRange c5st.m_inputs c5regions).2 ≤ f.sync_timeStamp ∨
        (c5st.m_inputs 0).m_frame_queue.getLast? = some f) :=
  sync_mode_reaches_target loadNone c5st c5regions (by decide) (by decide)
    (by decide) (by decide) 0 ⟨0, fullRegion⟩
    (some (.fromQueue (tsFrame 20))) (by decide) (by decide) (by decide)

/-! ## C7: fps quantization -/

theorem fpsDouble_ge (maxFps : Nat) : ∀ f, 0 < f → maxFps ≤ fpsDouble maxFps f := by
  intro f hf
  induction f using fpsDouble.induct maxFps with
  | case1 f h ih =>
    rw [fpsDouble, if_pos h]
    exact ih (by omega)
  | case2 f h =>
    rw [fpsDouble, if_neg h]
    omega

theorem fpsDouble_eq_iff (maxFps : Nat) : ∀ f, 0 < f →
    (fpsDouble maxFps f = maxFps ↔ ∃ k, maxFps = f * 2 ^ k) := by
  intro f
  induction f using fpsDouble.induct maxFps with
  | case1 f h ih =>
    intro hf
    rw [fpsDouble, if_pos h]
    constructor
    · intro heq
      obtain ⟨k, hk⟩ := (ih (by omega)).mp heq
      refine ⟨k + 1, ?_⟩
      rw [hk, pow_succ]
      ring
    · rintro ⟨k, hk⟩
      cases k with
      | zero =>
        simp only [pow_zero, Nat.mul_one] at hk
        omega
      | succ k2 =>
        refine (ih (by omega)).mpr ⟨k2, ?_⟩
        rw [hk, pow_succ]
        ring
  | case2 f h =>
    intro hf
    rw [fpsDouble, if_neg h]
    constructor
    · intro heq
      exact ⟨0, by simp [heq]⟩
    · rintro ⟨k, hk⟩
      have hle : f ≤ maxFps := by
        rw [hk]
        calc f = f * 1 := by ring
          _ ≤ f * 2 ^ k := Nat.mul_le_mul_left f (Nat.one_le_pow k 2 (by norm_num))
      omega

theorem supScan_iff (maxFps fps : Nat) : ∀ n, 0 < n →
    (supScan maxFps fps n = true ↔ ∃ k, fps = n * 2 ^ k ∧ fps ≤ maxFps) := by
  intro n
  induction n using supScan.induct maxFps fps with
  | case1 h =>
    intro hn
    rw [supScan, if_pos h, if_pos rfl]
    simp only [true_iff]
    exact ⟨0, by simp, h.2⟩
  | case2 n h hne ih =>
    intro hn
    rw [supScan, if_pos h, if_neg hne]
    rw [ih (by omega)]
    constructor
    · rintro ⟨k, hk, hle⟩
      refine ⟨k + 1, ?_, hle⟩
      rw [hk, pow_succ]
      ring
    · rintro ⟨k, hk, hle⟩
      cases k with
      | zero =>
        simp only [pow_zero, Nat.mul_one] at hk
        exact absurd hk.symm hne
      | succ k2 =>
        refine ⟨k2, ?_, hle⟩
        rw [hk, pow_succ]
        ring
  | case3 n h =>
    intro hn
    rw [supScan, if_neg h]
    simp only [Bool.false_eq_true, false_iff]
    rintro ⟨k, hk, hle⟩
    have : n ≤ fps := by
      rw [hk]
      calc n = n * 1 := by ring
        _ ≤ n * 2 ^ k := Nat.mul_le_mul_left n (Nat.one_le_pow k 2 (by norm_num))
    omega

/-- C7: when `maxFps` is `minFps` times a power of two, the constructor
keeps `maxFps` and `isSupported` accepts exactly the rates
`minFps * 2 ^ k ≤ maxFps`; otherwise the constructor degrades
`m_maxSupportedFps` to `minFps` and only `fps = minFps` is supported. -/
theorem isSupported_quantization (minFps maxFps width height fps : Nat)
    (hmin : 0 < minFps) :
    ((∃ k, maxFps = minFps * 2 ^ k) →
      effectiveMaxFps maxFps minFps = maxFps ∧
      (isSupported minFps (effectiveMaxFps maxFps minFps) width height fps = true ↔
        ∃ k, fps = minFps * 2 ^ k ∧ fps ≤ maxFps)) ∧
    ((¬ ∃ k, maxFps = minFps * 2 ^ k) →
      effectiveMaxFps maxFps minFps = minFps ∧
      (isSupported minFps (effectiveMaxFps maxFps minFps) width height fps = true ↔
        fps = minFps)) := by
  constructor
  · rintro ⟨k, hk⟩
    have hfd : fpsDouble maxFps minFps = maxFps :=
      (fpsDouble_eq_iff maxFps minFps hmin).mpr ⟨k, hk⟩
    have heff : effectiveMaxFps maxFps minFps = maxFps := by
      unfold effectiveMaxFps
      rw [hfd]
      simp
    refine ⟨heff, ?_⟩
    rw [heff]
    unfold isSupported
    by_cases h1 : fps > maxFps ∨ fps < minFps
    · rw [if_pos h1]
      simp only [Bool.false_eq_true, false_iff]
      rintro ⟨j, hj, hle⟩
      have : minFps ≤ fps := by
        rw [hj]
        calc minFps = minFps * 1 := by ring
          _ ≤ minFps * 2 ^ j := Nat.mul_le_mul_left minFps (Nat.one_le_pow j 2 (by norm_num))
      omega
    · rw [if_neg h1]
      exact supScan_iff maxFps fps minFps hmin
  · intro hnk
    have hfd : fpsDouble maxFps minFps ≠ maxFps := fun h =>
      hnk ((fpsDouble_eq_iff maxFps minFps hmin).mp h)
    have hgt : maxFps < fpsDouble maxFps minFps :=
      lt_of_le_of_ne (fpsDouble_ge maxFps minFps hmin) (Ne.symm hfd)
    have heff : effectiveMaxFps maxFps minFps = minFps := by
      unfold effectiveMaxFps
      rw [if_pos hgt]
    refine ⟨heff, ?_⟩
    rw [heff]
    unfold isSupported
    by_cases h1 : fps > minFps ∨ fps < minFps
    · rw [if_pos h1]
      simp only [Bool.false_eq_true, false_iff]
      omega
    · rw [if_neg h1]
      have heq : fps = minFps := by omega
      subst heq
      rw [supScan, if_pos ⟨hmin, le_refl fps⟩, if_pos rfl]
      simp

/-- Witness for C7 at the generator band (60, 15) and fps 30. -/
theorem isSupported_quantization_witness :
    ((∃ k, 60 = 15 * 2 ^ k) →
      effectiveMaxFps 60 15 = 60 ∧
      (isSupported 15 (effectiveMaxFps 60 15) 640 480 30 = true ↔
        ∃ k, 30 = 15 * 2 ^ k ∧ 30 ≤ 60)) ∧
    ((¬ ∃ k, 60 = 15 * 2 ^ k) →
      effectiveMaxFps 60 15 = 15 ∧
      (isSupported 15 (effectiveMaxFps 60 15) 640 480 30 = true ↔ 30 = 15)) :=
  isSupported_quantization 15 60 640 480 30 (by decide)

/-! ## C8: output buckets and delivery cadence -/

theorem counterAt_eq (cmax : Nat) : ∀ n, counterAt cmax n = n % cmax := by
  intro n
  induction n with
  | zero => simp [counterAt]
  | succ n ih =>
    rw [counterAt, ih, counterTick, Nat.mod_add_mod]

theorem deliversAtTick_iff (cmax p : Nat) (hp : 0 < p) (hdvd : p ∣ cmax)
    (n : Nat) : deliversAtTick cmax p n = true ↔ n % p = 0 := by
  unfold deliversAtTick bucketFires
  have hp1 : p - 1 + 1 = p := by omega
  rw [counterAt_eq cmax n, hp1, Nat.mod_mod_of_dvd n hdvd]
  simp

/-- C8: an output at supported fps `f` on a generator with
`maxFps = minFps * 2 ^ K` is stored in bucket `maxFps / f - 1`, a tick
serves that bucket exactly when the counter (tick number modulo
`maxFps / minFps`) is divisible by the relative period `maxFps / f`, and
two successive served ticks are exactly `maxFps / f` apart. -/
theorem output_bucket_and_cadence (minFps maxFps width height fps K : Nat)
    (outputs : List (List Output_t)) (dst j n m : Nat)
    (hmin : 0 < minFps) (hK : maxFps = minFps * 2 ^ K)
    (hsup : isSupported minFps maxFps width height fps = true)
    (hdn : deliversAtTick (maxFps / minFps) (maxFps / fps) n = true)
    (hdm : deliversAtTick (maxFps / minFps) (maxFps / fps) m = true)
    (hnm : n < m)
    (hgap : ∀ l, n < l → l < m →
      deliversAtTick (maxFps / minFps) (maxFps / fps) l = false) :
    (maxFps / fps - 1 < outputs.length →
      (addOutput maxFps outputs width height fps dst).getD (maxFps / fps - 1) [] =
        outputs.getD (maxFps / fps - 1) [] ++ [⟨width, height, fps, dst⟩]) ∧
    (deliversAtTick (maxFps / minFps) (maxFps / fps) j = true ↔
      j % (maxFps / fps) = 0) ∧
    m = n + maxFps / fps := by
  have hcond : ¬ (fps > maxFps ∨ fps < minFps) := by
    intro hcon
    unfold isSupported at hsup
    rw [if_pos hcon] at hsup
    simp at hsup
  have hscan : supScan maxFps fps minFps = true := by
    unfold isSupported at hsup
    rwa [if_neg hcond] at hsup
  obtain ⟨k, hkfps, hkle⟩ := (supScan_iff maxFps fps minFps hmin).mp hscan
  have hkK : k ≤ K := by
    have h2 : minFps * 2 ^ k ≤ minFps * 2 ^ K := by
      rw [← hkfps, ← hK]
      exact hkle
    have h3 : (2 : Nat) ^ k ≤ 2 ^ K := Nat.le_of_mul_le_mul_left h2 hmin
    exact (Nat.pow_le_pow_iff_right (by norm_num)).mp h3
  have hp : maxFps / fps = 2 ^ (K - k) := by
    rw [hK, hkfps, Nat.mul_div_mul_left _ _ hmin, Nat.pow_div hkK (by norm_num)]
  have hcm : maxFps / minFps = 2 ^ K := by
    rw [hK, Nat.mul_div_cancel_left _ hmin]
  have hppos : 0 < maxFps / fps := by
    rw [hp]
    exact Nat.pos_pow_of_pos _ (by norm_num)
  have hdvd : (maxFps / fps) ∣ (maxFps / minFps) := by
    rw [hp, hcm]
    exact pow_dvd_pow 2 (by omega)
  have hiff := fun t => deliversAtTick_iff (maxFps / minFps) (maxFps / fps) hppos hdvd t
  refine ⟨?_, hiff j, ?_⟩
  · intro hlen
    unfold addOutput
    rw [List.getD_eq_getElem?_getD, List.getD_eq_getElem?_getD,
      List.getElem?_set_eq_of_lt _ (by simpa using hlen)]
    simp [List.getD_eq_getElem?_getD]
  · have hdvdn : (maxFps / fps) ∣ n := Nat.dvd_of_mod_eq_zero ((hiff n).mp hdn)
    have hdvdm : (maxFps / fps) ∣ m := Nat.dvd_of_mod_eq_zero ((hiff m).mp hdm)
    by_contra hne
    have hlt : n + maxFps / fps < m := by
      have hsub : (maxFps / fps) ∣ (m - n) := Nat.dvd_sub' hdvdm hdvdn
      have hpos : 0 < m - n := by omega
      have hle2 : maxFps / fps ≤ m - n := Nat.le_of_dvd hpos hsub
      omega
    have hdel : deliversAtTick (maxFps / minFps) (maxFps / fps) (n + maxFps / fps) = true := by
      rw [hiff]
      have : (maxFps / fps) ∣ (n + maxFps / fps) := Dvd.dvd.add hdvdn (dvd_refl _)
      omega
    have := hgap (n + maxFps / fps) (by omega) hlt
    rw [hdel] at this
    simp at this

/-- Witness for C8: band (60, 15), fps 30, so period 2 and counter max 4;
successive served ticks 2 and 4. -/
theorem output_bucket_and_cadence_witness :
    (60 / 30 - 1 < ([[], [], [], []] : List (List Output_t)).length →
      (addOutput 60 [[], [], [], []] 640 480 30 7).getD (60 / 30 - 1) [] =
        ([[], [], [], []] : List (List Output_t)).getD (60 / 30 - 1) [] ++
          [⟨640, 480, 30, 7⟩]) ∧
    (deliversAtTick (60 / 15) (60 / 30) 6 = true ↔ 6 % (60 / 30) = 0) ∧
    (4 : Nat) = 2 + 60 / 30 :=
  output_bucket_and_cadence 15 60 640 480 30 2 [[], [], [], []] 7 6 2 4
    (by decide) (by decide)
    (by rw [isSupported, if_neg (by omega)]
        rw [supScan, if_pos (by omega), if_neg (by omega)]
        rw [supScan, if_pos (by omega), if_pos rfl])
    (by decide) (by decide) (by decide)
    (by intro l h1 h2
        have h3 : l = 3 := by omega
        subst h3
        decide)

/-! ## C10: a failed avatar load is cached permanently -/

theorem alookup_aupdate_self {α β : Type} [DecidableEq α]
    (l : List (α × β)) (k : α) (v : β) :
    alookup (aupdate l k v) k = some v := by
  induction l with
  | nil => simp [aupdate, alookup]
  | cons p rest ih =>
    rcases p with ⟨a, b⟩
    by_cases h : a = k
    · simp [aupdate, alookup, h]
    · simp [aupdate, alookup, h, ih]

/-- C10: if the first `getAvatarFrame` for an index bound to url `u` fails
to load, the null result is cached under `u`; every later
`getAvatarFrame` for any index bound to `u` returns nothing and leaves the
state unchanged regardless of what a fresh load would now produce, and
`setAvatar` with the same url returns early without evicting the cached
failure, after which lookups still return nothing. -/
theorem getAvatarFrame_failure_cached (st : AvatarManager) (idx idx2 : Nat)
    (u : String) (load1 load2 : String → Option VideoFrame)
    (hbind : alookup st.m_inputs idx = some u)
    (hnc : alookup st.m_frames u = none)
    (hfail : load1 u = none) :
    (st.getAvatarFrame load1 idx).1 = none ∧
    alookup (st.getAvatarFrame load1 idx).2.m_frames u = some none ∧
    (alookup (st.getAvatarFrame load1 idx).2.m_inputs idx2 = some u →
      (st.getAvatarFrame load1 idx).2.getAvatarFrame load2 idx2 =
        (none, (st.getAvatarFrame load1 idx).2)) ∧
    ((st.getAvatarFrame load1 idx).2.setAvatar idx u =
      (true, (st.getAvatarFrame load1 idx).2)) ∧
    (alookup ((st.getAvatarFrame load1 idx).2.setAvatar idx u).2.m_inputs idx2 =
        some u →
      ((st.getAvatarFrame load1 idx).2.setAvatar idx u).2.getAvatarFrame load2 idx2 =
        (none, (st.getAvatarFrame load1 idx).2)) := by
  have hst1 : st.getAvatarFrame load1 idx =
      (none, { st with m_frames := aupdate st.m_frames u none }) := by
    simp [AvatarManager.getAvatarFrame, hbind, hnc, hfail]
  rw [hst1]
  dsimp only
  have hset : AvatarManager.setAvatar idx u
      { st with m_frames := aupdate st.m_frames u none } =
      (true, { st with m_frames := aupdate st.m_frames u none }) := by
    simp [AvatarManager.setAvatar, hbind]
  refine ⟨rfl, alookup_aupdate_self st.m_frames u none, ?_, hset, ?_⟩
  · intro hb2
    simp [AvatarManager.getAvatarFrame, hb2, alookup_aupdate_self]
  · intro hb2
    rw [hset] at hb2 ⊢
    simp [AvatarManager.getAvatarFrame, hb2, alookup_aupdate_self]

/-- Concrete avatar manager with index 2 bound to a url and an empty cache. -/
def c10mgr : AvatarManager :=
  { m_inputs := [(2, "face.320x240.i420")], m_frames := [] }

/-- Avatar loader that succeeds, used to show the cache is not re-read. -/
def loadSome : String → Option VideoFrame := fun _ => some ⟨7⟩

/-- Witness for C10: after one failed load of index 2's url, later lookups
return nothing even though a fresh load would now succeed. -/
theorem getAvatarFrame_failure_cached_witness :
    (c10mgr.getAvatarFrame loadNone 2).1 = none ∧
    alookup (c10mgr.getAvatarFrame loadNone 2).2.m_frames "face.320x240.i420" =
      some none ∧
    (alookup (c10mgr.getAvatarFrame loadNone 2).2.m_inputs 2 =
        some "face.320x240.i420" →
      (c10mgr.getAvatarFrame loadNone 2).2.getAvatarFrame loadSome 2 =
        (none, (c10mgr.getAvatarFrame loadNone 2).2)) ∧
    ((c10mgr.getAvatarFrame loadNone 2).2.setAvatar 2 "face.320x240.i420" =
      (true, (c10mgr.getAvatarFrame loadNone 2).2)) ∧
    (alookup
        ((c10mgr.getAvatarFrame loadNone 2).2.setAvatar 2
            "face.320x240.i420").2.m_inputs 2 = some "face.320x240.i420" →
      ((c10mgr.getAvatarFrame loadNone 2).2.setAvatar 2
          "face.320x240.i420").2.getAvatarFrame loadSome 2 =
        (none, (c10mgr.getAvatarFrame loadNone 2).2)) :=
  getAvatarFrame_failure_cached c10mgr 2 2 "face.320x240.i420" loadNone loadSome
    (by decide) (by decide) rfl
